import Mathlib

/-!
# Verification of the DIT4192 S/PDIF transmitter driver (spdif2digitech.c)

This file gives a shallow embedding, in Lean, of the AVR driver that
configures a DIT4192 digital-audio transmitter over its SPI control port,
and proves the bit- and byte-level protocol properties of that driver.

Two views of the program are modelled, mirroring its two layers:

* a byte/trace-level model of the register transport
  (`SELECT`/`DESELECT`, `spiSendBus`, `DIT4192WriteReg`, `DIT4192ReadReg`,
  and the `main` initialization state machine), where the serial bus is
  observed as a trace of select/deselect/exchange events and the bytes the
  peer returns are an environment input; and

* a bit-level model of the USI hardware shifter used by `SPISend`
  (`USI`, `usiStep`, `spiLoop`, `SPISend`), where each write to USICR
  toggles the clock line, steps the 4-bit counter, and shifts the data
  register on rising clock edges, and the loop polls the counter-overflow
  flag USIOIF.
-/

namespace Spdif2Digitech

/-! ## Byte/trace-level model of the serial bus -/

/-- One observable event on the serial control bus.  `xchg tx rx sel`
records one full-duplex byte exchange: `tx` is the byte shifted out,
`rx` the byte shifted in, and `sel` the state of the chip-select line
(`true` = asserted, i.e. the CS pin driven low) while the exchange ran. -/
inductive Event where
  | select : Event
  | deselect : Event
  | xchg : Nat → Nat → Bool → Event
deriving DecidableEq, Repr

/-- The state of the serial bus as seen by the transport layer:
whether chip-select is currently asserted, the stream of bytes the
attached chip will return on successive exchanges (the environment),
and the trace of events so far. -/
structure Bus where
  selected : Bool
  pending : List Nat
  trace : List Event
deriving Repr

/-- Embedding of the `SELECT` macro (`PORTB &= ~_BV(DIT4192_CS)`):
drive the active-low chip-select pin low, i.e. assert select. -/
def SELECT (s : Bus) : Bus :=
  { s with selected := true, trace := s.trace ++ [Event.select] }

/-- Embedding of the `DESELECT` macro (`PORTB |= _BV(DIT4192_CS)`):
drive the chip-select pin high, i.e. deassert select. -/
def DESELECT (s : Bus) : Bus :=
  { s with selected := false, trace := s.trace ++ [Event.deselect] }

/-- Byte-abstraction view of `SPISend`, as the register transport uses it:
one full-duplex 8-bit exchange.  The transmitted byte is `b` truncated to
8 bits (the C parameter is `uint8_t`); the received byte is the next byte
supplied by the environment, truncated to 8 bits since it comes out of the
8-bit USIDR register.  The exchange is recorded on the trace together with
the current chip-select state. -/
def spiSendBus (b : Nat) (s : Bus) : Nat × Bus :=
  let rx := (s.pending.headD 255) % 256
  (rx, { s with
           pending := s.pending.tail,
           trace := s.trace ++ [Event.xchg (b % 256) rx s.selected] })

/-- Embedding of `DIT4192WriteReg (uint8_t reg, uint8_t value)`:
assert select, exchange the command byte `reg & 0x3f`, the dummy byte
`0xff` and the payload byte, discarding all three received bytes, then
deassert select. -/
def DIT4192WriteReg (reg value : Nat) (s : Bus) : Bus :=
  let s1 := SELECT s
  let s2 := (spiSendBus (reg &&& 0x3f) s1).2
  let s3 := (spiSendBus 0xff s2).2
  let s4 := (spiSendBus value s3).2
  DESELECT s4

/-- Embedding of `DIT4192ReadReg (uint8_t reg)`: assert select, exchange
the command byte `(reg & 0x3f) | 0x80`, a dummy byte `0xff`, then a second
dummy byte `0xff` whose received byte is the register value; deassert
select and return that value. -/
def DIT4192ReadReg (reg : Nat) (s : Bus) : Nat × Bus :=
  let s1 := SELECT s
  let s2 := (spiSendBus ((reg &&& 0x3f) ||| 0x80) s1).2
  let s3 := (spiSendBus 0xff s2).2
  let p := spiSendBus 0xff s3
  (p.1, DESELECT p.2)

/-- The bytes shifted out on the wire, in order, extracted from a trace. -/
def emitted (t : List Event) : List Nat :=
  t.filterMap fun e =>
    match e with
    | Event.xchg tx _ _ => some tx
    | _ => none

/-- A bus whose trace is empty, chip-select deasserted, with environment
response stream `env`. -/
def freshBus (env : List Nat) : Bus :=
  { selected := false, pending := env, trace := [] }

/-! ## The initialization sequence of `main` as a state machine -/

/-- Register addresses and bit positions used by `main`, with the
source's names. -/
def AUDIO_SERIAL_PORT_CONTROL : Nat := 0x03

/-- Power-down and clock control register address (02H). -/
def POWER_DOWN_AND_CLOCK_CONTROL : Nat := 0x02

/-- Bit position of JUS (audio data justification) in register 03H. -/
def JUS : Nat := 4

/-- Bit position of WLEN0 (word length, low bit) in register 03H. -/
def WLEN0 : Nat := 2

/-- Bit position of CLK0 (MCLK rate selection, low bit) in register 02H. -/
def CLK0 : Nat := 1

/-- The avr-libc `_BV` macro: `1 << b`. -/
def BV (b : Nat) : Nat := 1 <<< b

/-- The phases of the one-shot initialization sequence in `main`:
`Unconfigured` before the pin setup and settle delay, `Configuring` while
the two register writes are issued, `Parked` once the processor has been
put to sleep (or is spinning in the trailing `while (1);` if sleep was
skipped). -/
inductive InitPhase where
  | Unconfigured : InitPhase
  | Configuring : InitPhase
  | Parked : InitPhase
deriving DecidableEq, Repr

/-- One step of `main`'s control flow, as a state machine on a phase and
the bus.  From `Unconfigured`: set the pin directions, deassert select,
wait the 5 ms settle delay (no bus exchanges).  From `Configuring`: issue
the two configuration writes — register 03H gets `_BV(JUS) | _BV(WLEN0)`
and register 02H gets `_BV(CLK0)` — then disable interrupts and enter
power-down sleep.  From `Parked` (sleeping, or the fallback `while (1);`
if sleep returns): do nothing, forever. -/
def mainStep : InitPhase × Bus → InitPhase × Bus
  | (InitPhase.Unconfigured, s) => (InitPhase.Configuring, DESELECT s)
  | (InitPhase.Configuring, s) =>
      (InitPhase.Parked,
       DIT4192WriteReg POWER_DOWN_AND_CLOCK_CONTROL (BV CLK0)
         (DIT4192WriteReg AUDIO_SERIAL_PORT_CONTROL (BV JUS ||| BV WLEN0) s))
  | (InitPhase.Parked, s) => (InitPhase.Parked, s)

/-- Run `n` steps of `main` from the `Unconfigured` phase on bus `s`. -/
def mainRun (s : Bus) (n : Nat) : InitPhase × Bus :=
  mainStep^[n] (InitPhase.Unconfigured, s)

/-- The bus at reset: PORTB is all zero, so the active-low chip-select
pin is low, i.e. asserted; nothing has happened on the bus yet, and the
environment will answer successive exchanges with the bytes of `env`. -/
def initialBus (env : List Nat) : Bus :=
  { selected := true, pending := env, trace := [] }

/-- The complete run of `main` over environment `env`: two steps bring the
machine from `Unconfigured` through `Configuring` to the terminal `Parked`
phase. -/
def main (env : List Nat) : InitPhase × Bus :=
  mainRun (initialBus env) 2

/-! ## Chip-select discipline checkers on traces -/

/-- Scan a trace tracking the chip-select line (second argument: `true` =
currently asserted).  Returns `false` exactly when some `select` event
occurs while select is already asserted — i.e. when two asserted-select
windows would overlap. -/
def selectBalanced : List Event → Bool → Bool
  | [], _ => true
  | Event.select :: r, sel => !sel && selectBalanced r true
  | Event.deselect :: r, _ => selectBalanced r false
  | Event.xchg _ _ _ :: r, sel => selectBalanced r sel

/-- Check that every byte exchange in a trace happened with chip-select
asserted. -/
def exchangesSelected : List Event → Bool
  | [] => true
  | Event.xchg _ _ sel :: r => sel && exchangesSelected r
  | _ :: r => exchangesSelected r

/-! ## Bit-level model of the USI shifter (`SPISend`) -/

/-- The USI hardware state: the 8-bit data/shift register USIDR, the
4-bit counter USICNT (the low nibble of USISR), the counter-overflow flag
USIOIF, and the current level of the clock pin (USCK / PB2). -/
structure USI where
  USIDR : Nat
  USICNT : Nat
  USIOIF : Bool
  SCK : Bool
deriving DecidableEq, Repr

/-- One shift of the USI data register: the most-significant bit drops
out on the wire, and the sampled input bit `di` enters at the bottom. -/
def shiftIn (dr di : Nat) : Nat := (dr % 128) * 2 + di % 2

/-- One write of `_BV(USIWM0) | _BV(USICS1) | _BV(USICLK) | _BV(USITC)`
to USICR: the clock pin toggles, producing one clock edge; the 4-bit
counter advances by one on every edge and sets USIOIF when it wraps from
15 to 0; on a rising edge (clock pin currently low) the shift register
shifts, sampling the input bit `di`. -/
def usiStep (di : Nat) (u : USI) : USI :=
  let u1 := if u.SCK then u else { u with USIDR := shiftIn u.USIDR di }
  { u1 with
      SCK := !u.SCK,
      USICNT := (u.USICNT + 1) % 16,
      USIOIF := u.USIOIF || decide (u.USICNT = 15) }

/-- The polling loop of `SPISend`
(`while (!(USISR & _BV(USIOIF))) { USICR = ...; }`), run with `fuel`
remaining loop-condition checks.  Each iteration first reads USIOIF; if
it is set the loop exits, otherwise one USICR write (`usiStep`) is
performed and the loop repeats.  `dis` is the stream of bits the peer
presents on the DI pin, one consumed per rising clock edge; `pulses`
accumulates, per full clock pulse, the pair (bit driven out, bit sampled
in).  Returns `none` when `fuel` runs out before USIOIF is observed. -/
def spiLoop (dis : List Nat) (pulses : List (Nat × Nat)) (u : USI) :
    Nat → Option (List (Nat × Nat) × USI)
  | 0 => none
  | fuel + 1 =>
    if u.USIOIF then some (pulses, u)
    else if u.SCK then
      spiLoop dis pulses (usiStep (dis.headD 0) u) fuel
    else
      spiLoop dis.tail (pulses ++ [(u.USIDR / 128, (dis.headD 0) % 2)])
        (usiStep (dis.headD 0) u) fuel

/-- Embedding of `uint8_t SPISend (uint8_t b)` at the bit level:
`USIDR = b` loads the (8-bit) data register; `USISR = _BV(USIOIF)`
clears the overflow flag and zeroes the 4-bit counter; then the polling
loop runs until USIOIF is observed; finally the received byte is read
back from USIDR.  Returns the received byte together with the per-pulse
bit trace and the final hardware state, or `none` if `fuel` checks of the
loop condition did not see completion. -/
def SPISend (b : Nat) (dis : List Nat) (u : USI) (fuel : Nat) :
    Option (Nat × List (Nat × Nat) × USI) :=
  let u1 := { u with USIDR := b % 256 }
  let u2 := { u1 with USIOIF := false, USICNT := 0 }
  match spiLoop dis [] u2 fuel with
  | none => none
  | some (pulses, uf) => some (uf.USIDR, pulses, uf)

/-- The USI state at power-up: all registers zero, flag clear, clock pin
low. -/
def usiReset : USI :=
  { USIDR := 0, USICNT := 0, USIOIF := false, SCK := false }

/-- The completion-polling loop of `SPISend` with the hardware register
read abstracted: `oifAt k` is the value the k-th read of `USISR &
_BV(USIOIF)` returns (the hardware is free to behave arbitrarily, e.g. to
never signal completion).  The loop returns the index of the first read
that observed the flag, or `none` if `fuel` reads were not enough. -/
def pollWait (oifAt : Nat → Bool) : Nat → Nat → Option Nat
  | 0, _ => none
  | fuel + 1, k => if oifAt k then some k else pollWait oifAt fuel (k + 1)

/-- The list of the 8 bits of byte `b`, most significant first. -/
def byteBitsMSB (b : Nat) : List Nat :=
  [b / 128 % 2, b / 64 % 2, b / 32 % 2, b / 16 % 2,
   b / 8 % 2, b / 4 % 2, b / 2 % 2, b % 2]

/-! ## Helper lemmas -/

theorem writeReg_run (reg value : Nat) (s : Bus) :
    DIT4192WriteReg reg value s =
      { selected := false,
        pending := s.pending.tail.tail.tail,
        trace := s.trace ++
          [Event.select,
           Event.xchg ((reg &&& 63) % 256) ((s.pending.headD 255) % 256) true,
           Event.xchg 255 ((s.pending.tail.headD 255) % 256) true,
           Event.xchg (value % 256) ((s.pending.tail.tail.headD 255) % 256) true,
           Event.deselect] } := by
  simp [DIT4192WriteReg, SELECT, DESELECT, spiSendBus]

theorem readReg_run (reg : Nat) (s : Bus) :
    DIT4192ReadReg reg s =
      ((s.pending.tail.tail.headD 255) % 256,
       { selected := false,
         pending := s.pending.tail.tail.tail,
         trace := s.trace ++
           [Event.select,
            Event.xchg (((reg &&& 63) ||| 128) % 256) ((s.pending.headD 255) % 256) true,
            Event.xchg 255 ((s.pending.tail.headD 255) % 256) true,
            Event.xchg 255 ((s.pending.tail.tail.headD 255) % 256) true,
            Event.deselect] }) := by
  simp [DIT4192ReadReg, SELECT, DESELECT, spiSendBus]

theorem and_63_eq {a : Nat} (h : a < 64) : a &&& 63 = a := by
  have h2 : a &&& 63 = a % 64 := Nat.and_pow_two_sub_one_eq_mod a 6
  rw [h2, Nat.mod_eq_of_lt h]

theorem parked_fix (n : Nat) (s : Bus) :
    mainStep^[n] (InitPhase.Parked, s) = (InitPhase.Parked, s) := by
  induction n with
  | zero => rfl
  | succ k ih =>
      rw [Function.iterate_succ_apply,
          show mainStep (InitPhase.Parked, s) = (InitPhase.Parked, s) from rfl, ih]

theorem mainRun_two (env : List Nat) :
    mainRun (initialBus env) 2 =
      (InitPhase.Parked,
       { selected := false,
         pending := env.tail.tail.tail.tail.tail.tail,
         trace := [Event.deselect,
                   Event.select,
                   Event.xchg 3 ((env.headD 255) % 256) true,
                   Event.xchg 255 ((env.tail.headD 255) % 256) true,
                   Event.xchg 20 ((env.tail.tail.headD 255) % 256) true,
                   Event.deselect,
                   Event.select,
                   Event.xchg 2 ((env.tail.tail.tail.headD 255) % 256) true,
                   Event.xchg 255 ((env.tail.tail.tail.tail.headD 255) % 256) true,
                   Event.xchg 2 ((env.tail.tail.tail.tail.tail.headD 255) % 256) true,
                   Event.deselect] }) := rfl

theorem or_128_lt {a : Nat} (h : a < 64) : a ||| 128 < 256 :=
  Nat.or_lt_two_pow (n := 8) (by omega) (by omega)

/-- C1: for every address `a` in [0,63] and every value `v` in [0,255],
write-register(a, v) emits exactly the three-byte sequence
`[a &&& 0x3F, 0xFF, v]` (= `[a, 0xFF, v]` on this range) over the byte
shifter, in that order, with chip-select continuously asserted across all
three exchanges (every exchange event carries `sel = true`) and deasserted
immediately after the third; the three received bytes `r0 r1 r2` are
discarded — the operation returns only the bus, no data. -/
theorem writeReg_framing (a v : Nat) (s : Bus) (ha : a < 64) (hv : v < 256) :
    ∃ r0 r1 r2,
      (DIT4192WriteReg a v s).trace = s.trace ++
        [Event.select, Event.xchg a r0 true, Event.xchg 255 r1 true,
         Event.xchg v r2 true, Event.deselect] ∧
      emitted (DIT4192WriteReg a v s).trace = emitted s.trace ++ [a, 255, v] ∧
      (DIT4192WriteReg a v s).selected = false := by
  have h1 : (a &&& 63) % 256 = a := by
    rw [and_63_eq ha]; omega
  have h2 : v % 256 = v := Nat.mod_eq_of_lt hv
  refine ⟨(s.pending.headD 255) % 256, (s.pending.tail.headD 255) % 256,
          (s.pending.tail.tail.headD 255) % 256, ?_, ?_, ?_⟩
  · rw [writeReg_run, h1, h2]
  · rw [writeReg_run, h1, h2]
    simp [emitted]
  · rw [writeReg_run]

theorem writeReg_framing_witness :
    ∃ r0 r1 r2,
      (DIT4192WriteReg 3 20 (freshBus [9, 8, 7])).trace = (freshBus [9, 8, 7]).trace ++
        [Event.select, Event.xchg 3 r0 true, Event.xchg 255 r1 true,
         Event.xchg 20 r2 true, Event.deselect] ∧
      emitted (DIT4192WriteReg 3 20 (freshBus [9, 8, 7])).trace =
        emitted (freshBus [9, 8, 7]).trace ++ [3, 255, 20] ∧
      (DIT4192WriteReg 3 20 (freshBus [9, 8, 7])).selected = false :=
  writeReg_framing 3 20 (freshBus [9, 8, 7]) (by decide) (by decide)

/-- C2: for every address `a` in [0,63], read-register(a) emits exactly
`[(a &&& 0x3F) ||| 0x80, 0xFF, 0xFF]` (= `[a ||| 0x80, 0xFF, 0xFF]` on
this range) with chip-select asserted across all three exchanges, discards
the bytes `r0`, `r1` received during the first and second exchanges, and
returns the byte `r2` received during the third exchange. -/
theorem readReg_framing (a : Nat) (s : Bus) (ha : a < 64) :
    ∃ r0 r1 r2,
      (DIT4192ReadReg a s).2.trace = s.trace ++
        [Event.select, Event.xchg (a ||| 128) r0 true, Event.xchg 255 r1 true,
         Event.xchg 255 r2 true, Event.deselect] ∧
      emitted (DIT4192ReadReg a s).2.trace = emitted s.trace ++ [a ||| 128, 255, 255] ∧
      (DIT4192ReadReg a s).1 = r2 ∧
      (DIT4192ReadReg a s).2.selected = false := by
  have h1 : ((a &&& 63) ||| 128) % 256 = a ||| 128 := by
    rw [and_63_eq ha]
    exact Nat.mod_eq_of_lt (or_128_lt ha)
  refine ⟨(s.pending.headD 255) % 256, (s.pending.tail.headD 255) % 256,
          (s.pending.tail.tail.headD 255) % 256, ?_, ?_, ?_, ?_⟩
  · rw [readReg_run]
    simp only [h1]
  · rw [readReg_run]
    simp [emitted, h1]
  · rw [readReg_run]
  · rw [readReg_run]

theorem readReg_framing_witness :
    ∃ r0 r1 r2,
      (DIT4192ReadReg 3 (freshBus [9, 8, 7])).2.trace = (freshBus [9, 8, 7]).trace ++
        [Event.select, Event.xchg 131 r0 true, Event.xchg 255 r1 true,
         Event.xchg 255 r2 true, Event.deselect] ∧
      emitted (DIT4192ReadReg 3 (freshBus [9, 8, 7])).2.trace =
        emitted (freshBus [9, 8, 7]).trace ++ [131, 255, 255] ∧
      (DIT4192ReadReg 3 (freshBus [9, 8, 7])).1 = r2 ∧
      (DIT4192ReadReg 3 (freshBus [9, 8, 7])).2.selected = false :=
  readReg_framing 3 (freshBus [9, 8, 7]) (by decide)

/-- C3: the initialization sequence, after the settle delay, issues
exactly two register writes in this order — write-register(0x03, 0x14)
(audio serial port control, `_BV(JUS) ||| _BV(WLEN0)` = 0x14) then
write-register(0x02, 0x02) (power-down/clock control, `_BV(CLK0)` =
0x02) — and no further bus transaction occurs afterward: the bus trace is
exactly the two write transactions (after the initial deselect of pin
setup), the machine is `Parked` after them, and every longer run leaves
phase and bus unchanged. -/
theorem main_init_sequence (env : List Nat) :
    (∃ r0 r1 r2 r3 r4 r5,
      (main env).2.trace =
        [Event.deselect,
         Event.select, Event.xchg 3 r0 true, Event.xchg 255 r1 true,
         Event.xchg 20 r2 true, Event.deselect,
         Event.select, Event.xchg 2 r3 true, Event.xchg 255 r4 true,
         Event.xchg 2 r5 true, Event.deselect]) ∧
    emitted (main env).2.trace = [3, 255, 20, 2, 255, 2] ∧
    (main env).1 = InitPhase.Parked ∧
    (∀ n, mainRun (initialBus env) (n + 2) = main env) := by
  refine ⟨⟨(env.headD 255) % 256, (env.tail.headD 255) % 256,
          (env.tail.tail.headD 255) % 256, (env.tail.tail.tail.headD 255) % 256,
          (env.tail.tail.tail.tail.headD 255) % 256,
          (env.tail.tail.tail.tail.tail.headD 255) % 256, ?_⟩, ?_, ?_, ?_⟩
  · show (mainRun (initialBus env) 2).2.trace = _
    rw [mainRun_two]
  · show emitted (mainRun (initialBus env) 2).2.trace = _
    rw [mainRun_two]
    simp [emitted]
  · show (mainRun (initialBus env) 2).1 = _
    rw [mainRun_two]
  · intro n
    show mainStep^[n + 2] (InitPhase.Unconfigured, initialBus env) = main env
    rw [Function.iterate_add_apply]
    have h2 : mainStep^[2] (InitPhase.Unconfigured, initialBus env) =
        mainRun (initialBus env) 2 := rfl
    rw [h2, mainRun_two, parked_fix]
    exact (mainRun_two env).symm

/-- C4: chip-select is asserted for the entire duration of every
transaction and for no duration outside one: each call to write-register
or read-register appends exactly one contiguous assert/deassert pair
bracketing its three byte exchanges (all carrying `sel = true`), the full
run of `main` never asserts select while it is already asserted
(`selectBalanced`), and every exchange in the run happens with select
asserted (`exchangesSelected`). -/
theorem select_exclusivity (env : List Nat) :
    (∀ a v s, ∃ r0 r1 r2,
      (DIT4192WriteReg a v s).trace = s.trace ++
        [Event.select, Event.xchg ((a &&& 63) % 256) r0 true,
         Event.xchg 255 r1 true, Event.xchg (v % 256) r2 true,
         Event.deselect]) ∧
    (∀ a s, ∃ r0 r1 r2,
      (DIT4192ReadReg a s).2.trace = s.trace ++
        [Event.select, Event.xchg (((a &&& 63) ||| 128) % 256) r0 true,
         Event.xchg 255 r1 true, Event.xchg 255 r2 true,
         Event.deselect]) ∧
    selectBalanced (main env).2.trace true = true ∧
    exchangesSelected (main env).2.trace = true := by
  refine ⟨?_, ?_, rfl, rfl⟩
  · intro a v s
    exact ⟨_, _, _, by rw [writeReg_run]⟩
  · intro a s
    exact ⟨_, _, _, by rw [readReg_run]⟩

/-- C5: for every 8-bit input `reg` (the full range 0–255, not only
0–63), the command byte placed on the wire has bit 6 equal to 0 and bit 7
equal to the direction flag (0 for write-register, 1 for read-register),
regardless of the top two bits of the caller-supplied address: the
transport masks the address with 0x3F before setting the direction bit. -/
theorem command_byte_direction (reg v : Nat) (env : List Nat) (_h : reg < 256) :
    ∃ cw cr,
      emitted (DIT4192WriteReg reg v (freshBus env)).trace = [cw, 255, v % 256] ∧
      emitted (DIT4192ReadReg reg (freshBus env)).2.trace = [cr, 255, 255] ∧
      cw = reg &&& 63 ∧ cr = (reg &&& 63) ||| 128 ∧
      cw.testBit 7 = false ∧ cw.testBit 6 = false ∧
      cr.testBit 7 = true ∧ cr.testBit 6 = false := by
  have hw : reg &&& 63 ≤ 63 := Nat.and_le_right
  have hwm : (reg &&& 63) % 256 = reg &&& 63 := by omega
  have hrm : ((reg &&& 63) ||| 128) % 256 = (reg &&& 63) ||| 128 :=
    Nat.mod_eq_of_lt (Nat.or_lt_two_pow (n := 8) (by omega) (by omega))
  refine ⟨reg &&& 63, (reg &&& 63) ||| 128, ?_, ?_, rfl, rfl, ?_, ?_, ?_, ?_⟩
  · rw [writeReg_run]
    simp [emitted, hwm, freshBus]
  · rw [readReg_run]
    simp [emitted, hrm, freshBus]
  · simp +decide [Nat.testBit_and]
  · simp +decide [Nat.testBit_and]
  · simp +decide [Nat.testBit_or]
  · simp +decide [Nat.testBit_or, Nat.testBit_and]

theorem command_byte_direction_witness :
    ∃ cw cr,
      emitted (DIT4192WriteReg 0xc5 7 (freshBus [])).trace = [cw, 255, 7 % 256] ∧
      emitted (DIT4192ReadReg 0xc5 (freshBus [])).2.trace = [cr, 255, 255] ∧
      cw = 0xc5 &&& 63 ∧ cr = (0xc5 &&& 63) ||| 128 ∧
      cw.testBit 7 = false ∧ cw.testBit 6 = false ∧
      cr.testBit 7 = true ∧ cr.testBit 6 = false :=
  command_byte_direction 0xc5 7 [] (by decide)

/-- C8: write-register and read-register have no failure outcome: both
are total functions of their inputs; write-register returns no value
(only the bus) and read-register always returns a byte (< 256); every
call completes its five bus events (one select, three exchanges, one
deselect) unconditionally, for every input. -/
theorem regops_no_failure (a v : Nat) (s : Bus) :
    (DIT4192WriteReg a v s).trace.length = s.trace.length + 5 ∧
    (DIT4192WriteReg a v s).selected = false ∧
    (DIT4192ReadReg a s).1 < 256 ∧
    (DIT4192ReadReg a s).2.trace.length = s.trace.length + 5 ∧
    (DIT4192ReadReg a s).2.selected = false := by
  rw [writeReg_run, readReg_run]
  refine ⟨?_, rfl, ?_, ?_, rfl⟩
  · simp
  · show (s.pending.tail.tail.headD 255) % 256 < 256
    omega
  · simp

/-- C9: the initialization state machine is idempotent-once: once
`Parked` is reached, `mainStep` never leaves it, never re-enters
`Configuring`, and re-issues no write — for any number of further steps
the phase stays `Parked` and the bus trace is unchanged (no further
protocol activity). -/
theorem parked_terminal (s : Bus) :
    mainStep (InitPhase.Parked, s) = (InitPhase.Parked, s) ∧
    (∀ n, mainStep^[n] (InitPhase.Parked, s) = (InitPhase.Parked, s)) ∧
    (∀ n, (mainStep^[n] (InitPhase.Parked, s)).1 ≠ InitPhase.Configuring) ∧
    (∀ n, (mainStep^[n] (InitPhase.Parked, s)).2.trace = s.trace) := by
  refine ⟨rfl, fun n => parked_fix n s, fun n => ?_, fun n => ?_⟩
  · rw [parked_fix]
    exact fun hc => InitPhase.noConfusion hc
  · rw [parked_fix]

/-! ### The USI shifter: pulse-by-pulse evaluation lemmas -/

theorem spiLoop_pulse (dis : List Nat) (p : List (Nat × Nat)) (dr cnt fuel : Nat)
    (hcnt : cnt < 14) :
    spiLoop dis p { USIDR := dr, USICNT := cnt, USIOIF := false, SCK := false } (fuel + 2) =
      spiLoop dis.tail (p ++ [(dr / 128, dis.headD 0 % 2)])
        { USIDR := shiftIn dr (dis.headD 0), USICNT := cnt + 2, USIOIF := false,
          SCK := false } fuel := by
  have d1 : decide (cnt = 15) = false := decide_eq_false (by omega)
  have e1 : (cnt + 1) % 16 = cnt + 1 := Nat.mod_eq_of_lt (by omega)
  have d2 : decide (cnt + 1 = 15) = false := decide_eq_false (by omega)
  have e2 : (cnt + 1 + 1) % 16 = cnt + 2 := by omega
  have d3 : decide (cnt = 14) = false := decide_eq_false (by omega)
  show spiLoop dis p { USIDR := dr, USICNT := cnt, USIOIF := false, SCK := false }
      (fuel + 1 + 1) = _
  simp [spiLoop, usiStep, d1, e1, d2, e2, d3]

theorem spiLoop_last (dis : List Nat) (p : List (Nat × Nat)) (dr fuel : Nat) :
    spiLoop dis p { USIDR := dr, USICNT := 14, USIOIF := false, SCK := false } (fuel + 3) =
      some (p ++ [(dr / 128, dis.headD 0 % 2)],
            { USIDR := shiftIn dr (dis.headD 0), USICNT := 0, USIOIF := true,
              SCK := false }) := by
  show spiLoop dis p { USIDR := dr, USICNT := 14, USIOIF := false, SCK := false }
      (fuel + 1 + 1 + 1) = _
  simp [spiLoop, usiStep]

/-- C6: the byte shifter performs one full-duplex 8-bit exchange, most
significant bit first: for every transmitted byte `b` it drives 8 clock
pulses (the pulse trace has 8 entries), the bits driven out are
`byteBitsMSB b`, the bit captured during pulse `k` is `d_k` (the trace is
the `zip` of the two — each incoming bit is captured in the same clock
pulse as the corresponding outgoing bit), and the byte returned is the
8 received bits reassembled most-significant-first. -/
theorem SPISend_full_duplex (b d0 d1 d2 d3 d4 d5 d6 d7 fuel : Nat)
    (hb : b < 256) (h0 : d0 < 2) (h1 : d1 < 2) (h2 : d2 < 2) (h3 : d3 < 2)
    (h4 : d4 < 2) (h5 : d5 < 2) (h6 : d6 < 2) (h7 : d7 < 2) :
    SPISend b [d0, d1, d2, d3, d4, d5, d6, d7] usiReset (fuel + 17) =
      some (d0 * 128 + d1 * 64 + d2 * 32 + d3 * 16 + d4 * 8 + d5 * 4 + d6 * 2 + d7,
            (byteBitsMSB b).zip [d0, d1, d2, d3, d4, d5, d6, d7],
            { USIDR := d0 * 128 + d1 * 64 + d2 * 32 + d3 * 16 + d4 * 8 + d5 * 4 + d6 * 2 + d7,
              USICNT := 0, USIOIF := true, SCK := false }) := by
  simp only [SPISend, usiReset]
  rw [(by omega : fuel + 17 = fuel + 15 + 2), spiLoop_pulse _ _ _ 0 _ (by omega)]
  simp only [List.headD_cons, List.tail_cons]
  rw [(by omega : fuel + 15 = fuel + 13 + 2), spiLoop_pulse _ _ _ 2 _ (by omega)]
  simp only [List.headD_cons, List.tail_cons]
  rw [(by omega : fuel + 13 = fuel + 11 + 2), spiLoop_pulse _ _ _ 4 _ (by omega)]
  simp only [List.headD_cons, List.tail_cons]
  rw [(by omega : fuel + 11 = fuel + 9 + 2), spiLoop_pulse _ _ _ 6 _ (by omega)]
  simp only [List.headD_cons, List.tail_cons]
  rw [(by omega : fuel + 9 = fuel + 7 + 2), spiLoop_pulse _ _ _ 8 _ (by omega)]
  simp only [List.headD_cons, List.tail_cons]
  rw [(by omega : fuel + 7 = fuel + 5 + 2), spiLoop_pulse _ _ _ 10 _ (by omega)]
  simp only [List.headD_cons, List.tail_cons]
  rw [(by omega : fuel + 5 = fuel + 3 + 2), spiLoop_pulse _ _ _ 12 _ (by omega)]
  simp only [List.headD_cons, List.tail_cons]
  rw [spiLoop_last]
  simp only [List.headD_cons, List.tail_cons, List.nil_append, List.cons_append,
    List.append_nil]
  simp only [byteBitsMSB, shiftIn, List.zip_cons_cons, List.zip_nil_right,
    Option.some.injEq, Prod.mk.injEq, List.cons.injEq, USI.mk.injEq, and_true,
    true_and]
  omega

theorem SPISend_full_duplex_witness :
    SPISend 165 [1, 0, 1, 1, 0, 0, 1, 0] usiReset (0 + 17) =
      some (1 * 128 + 0 * 64 + 1 * 32 + 1 * 16 + 0 * 8 + 0 * 4 + 1 * 2 + 0,
            (byteBitsMSB 165).zip [1, 0, 1, 1, 0, 0, 1, 0],
            { USIDR := 1 * 128 + 0 * 64 + 1 * 32 + 1 * 16 + 0 * 8 + 0 * 4 + 1 * 2 + 0,
              USICNT := 0, USIOIF := true, SCK := false }) :=
  SPISend_full_duplex 165 1 0 1 1 0 0 1 0 0 (by decide) (by decide) (by decide)
    (by decide) (by decide) (by decide) (by decide) (by decide) (by decide)

/-- C7: the byte shifter does not return until the transfer-complete
(counter-overflow) condition is observed: `pollWait` (the polling loop
with the hardware flag reads abstracted as the sequence `oifAt`) returns
only an index at which the flag read true; if the flag is never signaled
the loop never returns, for every amount of fuel — a busy poll with no
timeout; and in the concrete hardware model, `spiLoop` only ever returns
a state in which USIOIF is set. -/
theorem spi_poll_no_timeout :
    (∀ oifAt fuel start k, pollWait oifAt fuel start = some k → oifAt k = true) ∧
    (∀ oifAt, (∀ k, oifAt k = false) → ∀ fuel start, pollWait oifAt fuel start = none) ∧
    (∀ fuel dis p u r, spiLoop dis p u fuel = some r → r.2.USIOIF = true) := by
  refine ⟨?_, ?_, ?_⟩
  · intro oifAt fuel
    induction fuel with
    | zero => intro start k h; exact Option.noConfusion h
    | succ m ih =>
        intro start k h
        simp only [pollWait] at h
        by_cases hs : oifAt start = true
        · rw [if_pos hs] at h
          obtain rfl : start = k := Option.some.inj h
          exact hs
        · rw [if_neg hs] at h
          exact ih (start + 1) k h
  · intro oifAt hnever fuel
    induction fuel with
    | zero => intro start; rfl
    | succ m ih =>
        intro start
        have hs : oifAt start = false := hnever start
        simp only [pollWait, hs, Bool.false_eq_true, if_false]
        exact ih (start + 1)
  · intro fuel
    induction fuel with
    | zero => intro dis p u r h; exact Option.noConfusion h
    | succ m ih =>
        intro dis p u r h
        simp only [spiLoop] at h
        by_cases ho : u.USIOIF = true
        · rw [if_pos ho] at h
          obtain rfl : (p, u) = r := Option.some.inj h
          exact ho
        · rw [if_neg ho] at h
          by_cases hs : u.SCK = true
          · rw [if_pos hs] at h
            exact ih _ _ _ r h
          · rw [if_neg hs] at h
            exact ih _ _ _ r h

theorem spi_poll_no_timeout_witness :
    pollWait (fun _ => false) 5 0 = none :=
  spi_poll_no_timeout.2.1 (fun _ => false) (fun _ => rfl) 5 0

/-- C10: `SPISend` clears the counter-overflow flag (the `USISR =
_BV(USIOIF)` write, which also zeroes the 4-bit counter) before entering
its polling loop: its result is identical whatever stale USIOIF flag,
counter value or data register a previous transfer left behind, and even
with a stale flag set the loop still performs the full 8-pulse exchange
and returns only once USIOIF is freshly set. -/
theorem SPISend_clears_stale_flag (b dr0 cnt0 : Nat) (oif0 : Bool) (dis : List Nat)
    (fuel : Nat) :
    SPISend b dis { USIDR := dr0, USICNT := cnt0, USIOIF := oif0, SCK := false } fuel =
      SPISend b dis usiReset fuel ∧
    ∃ rx p uf,
      SPISend b dis { USIDR := dr0, USICNT := cnt0, USIOIF := oif0, SCK := false }
          (fuel + 17) = some (rx, p, uf) ∧
      p.length = 8 ∧ uf.USIOIF = true ∧ uf.USICNT = 0 := by
  constructor
  · rfl
  · simp only [SPISend]
    rw [(by omega : fuel + 17 = fuel + 15 + 2), spiLoop_pulse _ _ _ 0 _ (by omega)]
    rw [(by omega : fuel + 15 = fuel + 13 + 2), spiLoop_pulse _ _ _ 2 _ (by omega)]
    rw [(by omega : fuel + 13 = fuel + 11 + 2), spiLoop_pulse _ _ _ 4 _ (by omega)]
    rw [(by omega : fuel + 11 = fuel + 9 + 2), spiLoop_pulse _ _ _ 6 _ (by omega)]
    rw [(by omega : fuel + 9 = fuel + 7 + 2), spiLoop_pulse _ _ _ 8 _ (by omega)]
    rw [(by omega : fuel + 7 = fuel + 5 + 2), spiLoop_pulse _ _ _ 10 _ (by omega)]
    rw [(by omega : fuel + 5 = fuel + 3 + 2), spiLoop_pulse _ _ _ 12 _ (by omega)]
    rw [spiLoop_last]
    refine ⟨_, _, _, rfl, ?_, rfl, rfl⟩
    simp

end Spdif2Digitech
